import Mathlib

/-!
Verification of `client/perf/wave4_ios_perf.py` (Wave 4 iOS runtime profiling).

The numeric core of the script lives in three places: the in-page JavaScript
snippets (`FPS_SAMPLE_JS`, `TRANSITION_FPS_JS`) that reduce animation-frame
timestamps to frame-rate statistics, the Python aggregation functions
(`safe_round`, `aggregate_startup`, `aggregate_transitions`), and the
transition collector (`collect_transition_rounds`).  All numbers are embedded
as rationals; JavaScript `Number(x.toFixed(p))` is embedded as round-half-up
to `p` decimal places and Python `round(x, p)` as round-half-to-even.
-/

namespace Wave4

/-- JavaScript `Number(x.toFixed(places))`: round to `places` decimal places,
ties toward positive infinity (the larger candidate). -/
def toFixed (places : ℕ) (q : ℚ) : ℚ :=
  ((⌊q * 10 ^ places + 1 / 2⌋ : ℤ) : ℚ) / 10 ^ places

/-- Round-half-to-even on a rational, to an integer. -/
def roundHalfEven (q : ℚ) : ℤ :=
  let f := ⌊q⌋
  if q - f < 1 / 2 then f
  else if 1 / 2 < q - f then f + 1
  else if f % 2 = 0 then f else f + 1

/-- Python `round(x, places)` on a float value: round-half-to-even at
`places` decimal places. -/
def pyRound (places : ℕ) (q : ℚ) : ℚ :=
  ((roundHalfEven (q * 10 ^ places) : ℤ) : ℚ) / 10 ^ places

/-- Inter-frame deltas: `for i in 1..len-1: push(stamps[i] - stamps[i-1])`
(both `FPS_SAMPLE_JS` and `TRANSITION_FPS_JS`). -/
def frameDeltas (stamps : List ℚ) : List ℚ :=
  List.zipWith (fun a b => b - a) stamps stamps.tail

/-- JavaScript `[...frameDeltas].sort((a, b) => a - b)`: the deltas sorted
ascending. -/
def sortAsc (l : List ℚ) : List ℚ :=
  l.insertionSort (· ≤ ·)

/-- `sorted.length > 0 ? Math.max(0, Math.ceil(sorted.length * 0.95) - 1) : 0`. -/
def p95Index (n : ℕ) : ℕ :=
  if 0 < n then (max 0 (⌈(n : ℚ) * (95 / 100)⌉ - 1)).toNat else 0

/-- The record resolved by `FPS_SAMPLE_JS` (and the frame-rate part of
`TRANSITION_FPS_JS`). -/
structure FrameRateSample where
  avgFps : ℚ
  p95FrameMs : ℚ
  droppedFrameRatio : ℚ
  totalFrames : ℕ
  sampleDurationMs : ℚ
  deriving DecidableEq

/-- The frame-rate computation of `FPS_SAMPLE_JS` on the collected timestamp
list `stamps` (lines 85-106 of the source; `TRANSITION_FPS_JS` lines 166-177
repeat it verbatim on its own stamp list). -/
def fpsStats (stamps : List ℚ) : FrameRateSample :=
  let deltas := frameDeltas stamps
  let duration := deltas.foldl (fun sum v => sum + v) 0
  let fps := if 0 < duration then ((deltas.length : ℚ) / duration) * 1000 else 0
  let sorted := sortAsc deltas
  let p95Idx := p95Index sorted.length
  let p95FrameMs := if 0 < sorted.length then sorted.getD p95Idx 0 else 0
  let dropped :=
    if 0 < deltas.length then
      (((deltas.filter (fun d => 24 < d)).length : ℚ) / (deltas.length : ℚ))
    else 0
  { avgFps := toFixed 3 fps
    p95FrameMs := toFixed 3 p95FrameMs
    droppedFrameRatio := toFixed 4 dropped
    totalFrames := deltas.length
    sampleDurationMs := toFixed 3 duration }

/-- The percentile index in pure natural-number arithmetic:
`max(0, ceil(n * 0.95) - 1)` is `(19 * n + 19) / 20 - 1` (with truncating
natural division and subtraction). -/
theorem p95Index_eq (n : ℕ) : p95Index n = (19 * n + 19) / 20 - 1 := by
  rcases Nat.eq_zero_or_pos n with h | h
  · subst h; simp [p95Index]
  · unfold p95Index
    rw [if_pos h]
    have hq : (n : ℚ) * (95 / 100) = ((19 * n : ℤ) : ℚ) / 20 := by push_cast; ring
    set c := ⌈(n : ℚ) * (95 / 100)⌉ with hc
    have h1 : ((19 * n : ℤ) : ℚ) / 20 ≤ (c : ℚ) := hq ▸ Int.le_ceil _
    have h2 : (c : ℚ) < ((19 * n : ℤ) : ℚ) / 20 + 1 := hq ▸ Int.ceil_lt_add_one _
    have h1' : (19 * n : ℤ) ≤ c * 20 := by
      rw [div_le_iff₀ (by norm_num : (0 : ℚ) < 20)] at h1
      exact_mod_cast h1
    have h2' : c * 20 < (19 * n : ℤ) + 20 := by
      have : (c : ℚ) * 20 < ((19 * n : ℤ) : ℚ) + 20 := by
        rw [div_add' _ _ _ (by norm_num : (20 : ℚ) ≠ 0)] at h2
        calc (c : ℚ) * 20 < (((19 * n : ℤ) : ℚ) + 1 * 20) / 20 * 20 := by
              exact mul_lt_mul_of_pos_right (by linarith) (by norm_num)
          _ = ((19 * n : ℤ) : ℚ) + 20 := by field_simp
      exact_mod_cast this
    omega

theorem foldl_add_eq_sum (l : List ℚ) (a : ℚ) :
    l.foldl (fun sum v => sum + v) a = a + l.sum := by
  induction l generalizing a with
  | nil => simp
  | cons x xs ih => simp [ih, add_assoc]

theorem frameDeltas_length (stamps : List ℚ) :
    (frameDeltas stamps).length = stamps.length - 1 := by
  simp only [frameDeltas, List.length_zipWith, List.length_tail]
  omega

theorem frameDeltas_cons (x y : ℚ) (rest : List ℚ) :
    frameDeltas (x :: y :: rest) = (y - x) :: frameDeltas (y :: rest) := rfl

theorem sum_frameDeltas (x : ℚ) (rest : List ℚ) :
    (frameDeltas (x :: rest)).sum = rest.getLastD x - x := by
  induction rest generalizing x with
  | nil => simp [frameDeltas]
  | cons y rest2 ih =>
    rw [frameDeltas_cons, List.sum_cons, ih y, List.getLastD_cons]
    ring

theorem frameDeltas_pos (stamps : List ℚ) (h : stamps.Chain' (· < ·)) :
    ∀ d ∈ frameDeltas stamps, 0 < d := by
  induction stamps with
  | nil => simp [frameDeltas]
  | cons x rest ih =>
    cases rest with
    | nil => simp [frameDeltas]
    | cons y rest2 =>
      rw [List.chain'_cons] at h
      intro d hd
      rw [frameDeltas_cons] at hd
      rcases List.mem_cons.1 hd with rfl | hmem
      · linarith [h.1]
      · exact ih h.2 d hmem

/-- Claim C2: for every frame-timestamp sequence with fewer than 2 timestamps
(so zero inter-frame deltas), the frame-rate sampler returns `avgFps = 0`,
`p95FrameMs = 0` and `droppedFrameRatio = 0` exactly; every division is
guarded by a positivity test of its denominator. -/
theorem fps_degenerate (stamps : List ℚ) (h : stamps.length < 2) :
    (fpsStats stamps).avgFps = 0 ∧ (fpsStats stamps).p95FrameMs = 0 ∧
      (fpsStats stamps).droppedFrameRatio = 0 := by
  match stamps, h with
  | [], _ => norm_num [fpsStats, frameDeltas, sortAsc, p95Index, toFixed]
  | [x], _ => norm_num [fpsStats, frameDeltas, sortAsc, p95Index, toFixed]

theorem fps_degenerate_witness :
    ([(42 : ℚ)].length < 2) ∧
      ((fpsStats [(42 : ℚ)]).avgFps = 0 ∧ (fpsStats [(42 : ℚ)]).p95FrameMs = 0 ∧
        (fpsStats [(42 : ℚ)]).droppedFrameRatio = 0) :=
  ⟨by norm_num, fps_degenerate [(42 : ℚ)] (by norm_num)⟩

/-- Claim C3: for every sequence of `N ≥ 2` strictly increasing frame
timestamps, the computed average FPS is `(N - 1) / totalDurationMs * 1000`
up to the final 3-decimal rounding, where `totalDurationMs` is the sum of
the `N - 1` inter-frame deltas, which equals last timestamp minus first. -/
theorem avgFps_eq_formula (stamps : List ℚ) (hchain : stamps.Chain' (· < ·))
    (hlen : 2 ≤ stamps.length) :
    (fpsStats stamps).avgFps
        = toFixed 3 (((stamps.length : ℚ) - 1) / (frameDeltas stamps).sum * 1000)
      ∧ (frameDeltas stamps).sum = stamps.getLastD 0 - stamps.headD 0 := by
  have hne : frameDeltas stamps ≠ [] := by
    have hl := frameDeltas_length stamps
    intro h0
    rw [h0] at hl
    simp at hl
    omega
  have hpos : 0 < (frameDeltas stamps).sum :=
    List.sum_pos _ (frameDeltas_pos stamps hchain) hne
  constructor
  · simp only [fpsStats, foldl_add_eq_sum, zero_add]
    rw [if_pos hpos, frameDeltas_length, Nat.cast_sub (by omega)]
    norm_num
  · obtain ⟨x, rest, rfl⟩ : ∃ x rest, stamps = x :: rest := by
      cases stamps with
      | nil => simp at hlen
      | cons x rest => exact ⟨x, rest, rfl⟩
    rw [sum_frameDeltas, List.getLastD_cons]
    simp

theorem avgFps_eq_formula_witness :
    ([(0 : ℚ), 10, 20].Chain' (· < ·)) ∧ (2 ≤ [(0 : ℚ), 10, 20].length) ∧
      (fpsStats [(0 : ℚ), 10, 20]).avgFps
        = toFixed 3 ((([(0 : ℚ), 10, 20].length : ℚ) - 1)
            / (frameDeltas [(0 : ℚ), 10, 20]).sum * 1000) ∧
      (fpsStats [(0 : ℚ), 10, 20]).avgFps = 100 := by
  have hc : [(0 : ℚ), 10, 20].Chain' (· < ·) := by norm_num [List.chain'_cons]
  have h := avgFps_eq_formula [(0 : ℚ), 10, 20] hc (by norm_num)
  refine ⟨hc, by norm_num, h.1, ?_⟩
  rw [h.1]
  norm_num [frameDeltas, toFixed]

/-- Claim C4: for every non-empty list of inter-frame deltas, the dropped
frame ratio is the count of deltas strictly above the fixed 24 ms threshold
divided by the number of deltas, rounded to 4 decimal places. -/
theorem droppedFrameRatio_eq (stamps : List ℚ) (h : frameDeltas stamps ≠ []) :
    (fpsStats stamps).droppedFrameRatio
      = toFixed 4 ((((frameDeltas stamps).countP (fun d => 24 < d)) : ℚ)
          / ((frameDeltas stamps).length : ℚ)) := by
  simp only [fpsStats]
  rw [if_pos (List.length_pos.mpr h), List.countP_eq_length_filter]

theorem droppedFrameRatio_eq_witness :
    (frameDeltas [(0 : ℚ), 10, 20, 50, 60] ≠ []) ∧
      (fpsStats [(0 : ℚ), 10, 20, 50, 60]).droppedFrameRatio = 1 / 4 := by
  have h : frameDeltas [(0 : ℚ), 10, 20, 50, 60] ≠ [] := by simp [frameDeltas]
  refine ⟨h, ?_⟩
  rw [droppedFrameRatio_eq _ h]
  norm_num [frameDeltas, toFixed]

/-- Claim C5: for every non-empty list of `n` inter-frame deltas, the p95
frame time is the entry at index `max(0, ceil(n * 0.95) - 1)` — in natural
arithmetic, `(19 * n + 19) / 20 - 1` — of the deltas sorted ascending (the
sorted list being a sorted permutation of the deltas), up to the final
3-decimal rounding. -/
theorem p95FrameMs_eq (stamps : List ℚ) (h : frameDeltas stamps ≠ []) :
    (fpsStats stamps).p95FrameMs
        = toFixed 3 ((sortAsc (frameDeltas stamps)).getD
            ((19 * (frameDeltas stamps).length + 19) / 20 - 1) 0)
      ∧ (sortAsc (frameDeltas stamps)).Perm (frameDeltas stamps)
      ∧ (sortAsc (frameDeltas stamps)).Sorted (· ≤ ·) := by
  refine ⟨?_, List.perm_insertionSort _ _, List.sorted_insertionSort _ _⟩
  have hlen : (sortAsc (frameDeltas stamps)).length = (frameDeltas stamps).length :=
    (List.perm_insertionSort _ _).length_eq
  simp only [fpsStats]
  rw [hlen, if_pos (List.length_pos.mpr h), p95Index_eq]

theorem p95FrameMs_eq_witness :
    (frameDeltas [(0 : ℚ), 5, 15, 30, 50] ≠ []) ∧
      (fpsStats [(0 : ℚ), 5, 15, 30, 50]).p95FrameMs
        = toFixed 3 ((sortAsc (frameDeltas [(0 : ℚ), 5, 15, 30, 50])).getD
            ((19 * (frameDeltas [(0 : ℚ), 5, 15, 30, 50]).length + 19) / 20 - 1) 0) ∧
      (fpsStats [(0 : ℚ), 5, 15, 30, 50]).p95FrameMs = 20 := by
  have h : frameDeltas [(0 : ℚ), 5, 15, 30, 50] ≠ [] := by simp [frameDeltas]
  have hthm := p95FrameMs_eq [(0 : ℚ), 5, 15, 30, 50] h
  refine ⟨h, hthm.1, ?_⟩
  rw [hthm.1]
  norm_num [frameDeltas, sortAsc, toFixed]

/-! ### Transition target selection (`TRANSITION_FPS_JS`, lines 120-131) -/

/-- The computed-style facts `isVisible` inspects for one DOM element
matching the trigger selector. -/
structure DomElement where
  visibility : String
  display : String
  clientRectsCount : ℕ
  deriving DecidableEq

/-- `isVisible(el)`: not `visibility: hidden`, not `display: none`, and at
least one client rect. -/
def isVisible (el : DomElement) : Bool :=
  !(el.visibility == "hidden") && !(el.display == "none")
    && decide (0 < el.clientRectsCount)

/-- `candidates.find(isVisible) || candidates[0] || null` (line 129): the
first visible match, else the first match of any visibility, else nothing. -/
def findTransitionTarget (candidates : List DomElement) : Option DomElement :=
  match candidates.find? isVisible with
  | some el => some el
  | none => candidates.head?

/-- `if (!target) return { error: ... }` (lines 130-131): the sampler
reports the missing-target error — which `collect_transition_rounds` turns
into a `RuntimeError` — precisely when `findTransitionTarget` is empty. -/
def transitionTargetMissing (candidates : List DomElement) : Bool :=
  (findTransitionTarget candidates).isNone

/-- A single candidate element that matches the selector but is invisible
(`display: none`, no client rects). -/
def c1Candidates : List DomElement :=
  [{ visibility := "visible", display := "none", clientRectsCount := 0 }]

/-- Claim C1, counterexample: with one matching but invisible element there
is no visible match, yet the capture does NOT report an error — it falls
back to `candidates[0]` and clicks the invisible element. -/
theorem transitionTarget_invisible_no_error :
    c1Candidates.find? isVisible = none ∧ c1Candidates ≠ [] ∧
      transitionTargetMissing c1Candidates = false := by
  refine ⟨?_, by simp [c1Candidates], ?_⟩ <;>
    simp [c1Candidates, isVisible, transitionTargetMissing, findTransitionTarget,
      List.find?]

/-- Claim C1, amended: the transition sampler reports the fatal
missing-target error if and only if no element at all (visible or not)
matches the trigger selector; when matching elements exist but none is
visible, the first match is clicked without any error. -/
theorem transitionTargetMissing_iff (candidates : List DomElement) :
    transitionTargetMissing candidates = true ↔ candidates = [] := by
  cases candidates with
  | nil => simp [transitionTargetMissing, findTransitionTarget]
  | cons x xs =>
    simp only [transitionTargetMissing, findTransitionTarget]
    cases h : (x :: xs).find? isVisible <;> simp

theorem transitionTargetMissing_iff_witness :
    transitionTargetMissing [] = true :=
  (transitionTargetMissing_iff []).mpr rfl

/-! ### `safe_round` (source lines 265-270) -/

/-- A Python `float | None` argument of `safe_round`: `None`, a float NaN,
or a numeric value (embedded as a rational). -/
inductive PyNum where
  | null
  | nan
  | num (q : ℚ)
  deriving DecidableEq

/-- `safe_round(value, places=3)`: `None` for `None`, `None` for NaN, else
`round(float(value), places)`. -/
def safe_round (value : PyNum) (places : ℕ := 3) : Option ℚ :=
  match value with
  | .null => none
  | .nan => none
  | .num q => some (pyRound places q)

/-- Claim C9: `safe_round` returns `None` exactly when its argument is
`None` or a float NaN; otherwise it returns the argument rounded (Python
banker's rounding) to the requested number of decimal places. -/
theorem safe_round_spec (value : PyNum) (places : ℕ) :
    (safe_round value places = none ↔ value = .null ∨ value = .nan) ∧
      ∀ q : ℚ, value = .num q → safe_round value places = some (pyRound places q) := by
  cases value <;> simp [safe_round]

theorem safe_round_spec_witness :
    safe_round (PyNum.num (5 : ℚ)) 2 = some (pyRound 2 (5 : ℚ)) ∧
      pyRound 2 (5 : ℚ) = 5 ∧ safe_round PyNum.null 2 = none :=
  ⟨(safe_round_spec (PyNum.num (5 : ℚ)) 2).2 5 rfl,
    by norm_num [pyRound, roundHalfEven],
    (safe_round_spec PyNum.null 2).1.mpr (Or.inl rfl)⟩

/-! ### Startup aggregation (`aggregate_startup`, source lines 370-413) -/

/-- A Python dict from field names to float-or-null values, embedded as an
association list (the source builds these dicts with unique keys). -/
abbrev PyDict := List (String × Option ℚ)

/-- Python truthiness of a dict-or-null value: `None` and `{}` are falsy. -/
def pyTruthy : Option PyDict → Bool
  | none => false
  | some d => !d.isEmpty

/-- Python `field in d`. -/
def hasKey (d : PyDict) (field : String) : Bool :=
  (d.lookup field).isSome

/-- Python `d.get(field)` — and `d[field]` for a key known present: `None`
both for a missing key and for a stored null. -/
def pyGet (d : PyDict) (field : String) : Option ℚ :=
  (d.lookup field).join

/-- One startup run as consumed by `aggregate_startup`: the `run` index and
the three entries of `run["metrics"]` (navigation may be null; paint and
startupFps are dicts). -/
structure StartupRun where
  run : ℕ
  navigation : Option PyDict
  paint : PyDict
  startupFps : PyDict
  deriving DecidableEq

/-- The navigation-field comprehension (lines 384-388): keep a run when its
navigation dict is truthy and `field in` it, and contribute the raw stored
value `run["metrics"]["navigation"][field]` — null included. -/
def navFieldVals (field : String) (runs : List StartupRun) : List (Option ℚ) :=
  (runs.filter (fun r => pyTruthy r.navigation && hasKey (r.navigation.getD []) field)).map
    (fun r => pyGet (r.navigation.getD []) field)

/-- The paint-field comprehension (lines 393-397): keep a run when its paint
dict is truthy and `paint.get(field) is not None`. -/
def paintFieldVals (field : String) (runs : List StartupRun) : List (Option ℚ) :=
  (runs.filter (fun r => pyTruthy (some r.paint) && (pyGet r.paint field).isSome)).map
    (fun r => pyGet r.paint field)

/-- The startup-FPS comprehension (lines 402-406): keep a run when its
startupFps dict is truthy and `startupFps.get(field) is not None`, and
contribute the raw `[field]` value. -/
def fpsFieldVals (field : String) (runs : List StartupRun) : List (Option ℚ) :=
  (runs.filter (fun r => pyTruthy (some r.startupFps) && (pyGet r.startupFps field).isSome)).map
    (fun r => pyGet r.startupFps field)

/-- Three startup runs whose navigation dicts carry
`domComplete = 100.0, None, 200.0` respectively. -/
def c6Runs : List StartupRun :=
  [ { run := 1, navigation := some [("domComplete", some 100)], paint := [], startupFps := [] },
    { run := 2, navigation := some [("domComplete", none)], paint := [], startupFps := [] },
    { run := 3, navigation := some [("domComplete", some 200)], paint := [], startupFps := [] } ]

/-- Claim C6 (code bug, evaluated at the failing input): the run whose
`domComplete` is null is NOT skipped by the navigation-field comprehension —
the collected values are `[100, null, 200]`, so the median is not computed
only over runs with a non-null value (`statistics.median` is then applied
to a list containing `None`). The paint and FPS comprehensions do skip the
null. -/
theorem navFieldVals_keeps_null :
    navFieldVals "domComplete" c6Runs = [some 100, none, some 200] ∧
      ¬ (∀ v ∈ navFieldVals "domComplete" c6Runs, v.isSome) := by
  have h : navFieldVals "domComplete" c6Runs = [some 100, none, some 200] := by
    simp [navFieldVals, c6Runs, pyTruthy, hasKey, pyGet, List.lookup]
  refine ⟨h, ?_⟩
  rw [h]
  intro hall
  exact Option.not_isSome_iff_eq_none.mpr rfl (hall none (by simp))

/-! ### Transition aggregation (`aggregate_transitions`, source lines 416-441) -/


/-- The fields of one transition measurement dict that the aggregation and
reporting read (`actualPath` embeds the JS result's own `to` field, the path
actually reached; the fields read through `.get` may be absent/null). -/
structure TransitionMetrics where
  avgFps : Option ℚ
  p95FrameMs : Option ℚ
  droppedFrameRatio : Option ℚ
  navigationDurationMs : Option ℚ
  reachedExpectedPath : Bool
  actualPath : String
  deriving DecidableEq

/-- One recorded transition entry (`collect_transition_rounds` lines
354-361); the source dict keys "from" and "to" are the fields
`«from»` and `«to»`. -/
structure TransitionEntry where
  «from» : String
  «to» : String
  selector : String
  metrics : TransitionMetrics
  deriving DecidableEq

/-- One round record (line 363). -/
structure TransitionRound where
  round : ℕ
  transitions : List TransitionEntry
  deriving DecidableEq

/-- The edge key `f'{transition["from"]}->{transition["to"]}'` (line 420). -/
def edgeKey (t : TransitionEntry) : String :=
  t.«from» ++ "->" ++ t.«to»

/-- `by_edge.setdefault(edge_key, []).append(transition["metrics"])` on an
association list: append to the existing group, else open a new group at
the end (Python dicts preserve insertion order). -/
def addToGroup (acc : List (String × List TransitionMetrics)) (k : String)
    (m : TransitionMetrics) : List (String × List TransitionMetrics) :=
  match acc with
  | [] => [(k, [m])]
  | (k', ms) :: rest =>
    if k' = k then (k', ms ++ [m]) :: rest else (k', ms) :: addToGroup rest k m

/-- One step of the grouping loop. -/
def stepGroups (acc : List (String × List TransitionMetrics))
    (t : TransitionEntry) : List (String × List TransitionMetrics) :=
  addToGroup acc (edgeKey t) t.metrics

/-- The `by_edge` grouping loop (lines 417-421). -/
def byEdge (rounds : List TransitionRound) : List (String × List TransitionMetrics) :=
  rounds.foldl (fun acc r => r.transitions.foldl stepGroups acc) []

/-- Python `statistics.median` on floats: middle element of the sorted
values, or the mean of the two middle elements. -/
def pyMedian (l : List ℚ) : ℚ :=
  let s := sortAsc l
  let n := s.length
  if n % 2 = 1 then s.getD (n / 2) 0
  else (s.getD (n / 2 - 1) 0 + s.getD (n / 2) 0) / 2

/-- Python `statistics.mean`. -/
def pyMean (l : List ℚ) : ℚ :=
  l.sum / l.length

/-- The per-edge summary record (`summary[edge]`, lines 431-439). -/
structure EdgeSummary where
  avgFpsMean : Option ℚ
  avgFpsMedian : Option ℚ
  p95FrameMsMedian : Option ℚ
  droppedFrameRatioMedian : Option ℚ
  navigationDurationMsMedian : Option ℚ
  expectedPathReachRate : Option ℚ
  samples : ℕ
  deriving DecidableEq

/-- The per-group body of `aggregate_transitions` (lines 425-439). -/
def edgeSummary (ms : List TransitionMetrics) : EdgeSummary :=
  let fpsVals := ms.filterMap (fun m => m.avgFps)
  let p95Vals := ms.filterMap (fun m => m.p95FrameMs)
  let dropVals := ms.filterMap (fun m => m.droppedFrameRatio)
  let navVals := ms.filterMap (fun m => m.navigationDurationMs)
  let reachRate := pyMean (ms.map (fun m => if m.reachedExpectedPath then (1 : ℚ) else 0))
  { avgFpsMean := if fpsVals.isEmpty then none else safe_round (.num (pyMean fpsVals)) 3
    avgFpsMedian := if fpsVals.isEmpty then none else safe_round (.num (pyMedian fpsVals)) 3
    p95FrameMsMedian := if p95Vals.isEmpty then none else safe_round (.num (pyMedian p95Vals)) 3
    droppedFrameRatioMedian := if dropVals.isEmpty then none else safe_round (.num (pyMedian dropVals)) 4
    navigationDurationMsMedian := if navVals.isEmpty then none else safe_round (.num (pyMedian navVals)) 3
    expectedPathReachRate := safe_round (.num reachRate) 4
    samples := ms.length }

/-- `aggregate_transitions`: group the rounds' measurements by edge key,
then summarize each group. -/
def aggregateTransitions (rounds : List TransitionRound) : List (String × EdgeSummary) :=
  (byEdge rounds).map (fun p => (p.1, edgeSummary p.2))

/-- All transition entries of all rounds, in iteration order. -/
def allTransitions (rounds : List TransitionRound) : List TransitionEntry :=
  rounds.foldr (fun r acc => r.transitions ++ acc) []

/-- The measurements of all entries whose edge key is `k`, in order. -/
def groupVals (k : String) (ts : List TransitionEntry) : List TransitionMetrics :=
  (ts.filter (fun t => edgeKey t == k)).map (fun t => t.metrics)

theorem lookup_cons_self {β : Type} (k : String) (b : β) (es : List (String × β)) :
    List.lookup k ((k, b) :: es) = some b := by
  simp [List.lookup_cons]

theorem lookup_cons_of_ne {β : Type} {k k' : String} (h : k ≠ k') (b : β)
    (es : List (String × β)) :
    List.lookup k ((k', b) :: es) = List.lookup k es := by
  simp [List.lookup_cons, beq_false_of_ne h]

theorem lookup_addToGroup (acc : List (String × List TransitionMetrics))
    (k : String) (m : TransitionMetrics) :
    (addToGroup acc k m).lookup k = some (((acc.lookup k).getD []) ++ [m]) := by
  induction acc with
  | nil => simp [addToGroup, lookup_cons_self]
  | cons p rest ih =>
    obtain ⟨k', ms⟩ := p
    by_cases h : k' = k
    · subst h
      rw [addToGroup, if_pos rfl, lookup_cons_self, lookup_cons_self]
      rfl
    · rw [addToGroup, if_neg h, lookup_cons_of_ne (Ne.symm h),
        lookup_cons_of_ne (Ne.symm h), ih]

theorem lookup_addToGroup_ne (acc : List (String × List TransitionMetrics))
    (k₀ k : String) (m : TransitionMetrics) (h : k₀ ≠ k) :
    (addToGroup acc k m).lookup k₀ = acc.lookup k₀ := by
  induction acc with
  | nil => simp [addToGroup, lookup_cons_of_ne h]
  | cons p rest ih =>
    obtain ⟨k', ms⟩ := p
    by_cases hk : k' = k
    · subst hk
      rw [addToGroup, if_pos rfl, lookup_cons_of_ne h, lookup_cons_of_ne h]
    · by_cases h0 : k₀ = k'
      · subst h0
        rw [addToGroup, if_neg hk, lookup_cons_self, lookup_cons_self]
      · rw [addToGroup, if_neg hk, lookup_cons_of_ne h0, lookup_cons_of_ne h0, ih]

theorem lookup_foldl_stepGroups (ts : List TransitionEntry)
    (acc : List (String × List TransitionMetrics)) (k : String) :
    (ts.foldl stepGroups acc).lookup k
      = match acc.lookup k, groupVals k ts with
        | some ms, g => some (ms ++ g)
        | none, [] => none
        | none, g => some g := by
  induction ts generalizing acc with
  | nil =>
    cases h : acc.lookup k <;> simp [groupVals, h]
  | cons t rest ih =>
    rw [List.foldl_cons, ih]
    by_cases hek : edgeKey t = k
    · have hstep : (stepGroups acc t).lookup k
          = some (((acc.lookup k).getD []) ++ [t.metrics]) := by
        rw [stepGroups, hek, lookup_addToGroup]
      have hg : groupVals k (t :: rest) = t.metrics :: groupVals k rest := by
        simp [groupVals, List.filter_cons, hek]
      rw [hstep, hg]
      cases h : acc.lookup k with
      | none => cases groupVals k rest <;> simp
      | some ms => cases groupVals k rest <;> simp
    · have hstep : (stepGroups acc t).lookup k = acc.lookup k := by
        rw [stepGroups, lookup_addToGroup_ne _ _ _ _ (Ne.symm hek)]
      have hg : groupVals k (t :: rest) = groupVals k rest := by
        simp [groupVals, List.filter_cons, hek]
      rw [hstep, hg]

theorem byEdge_eq_foldl (rounds : List TransitionRound) :
    byEdge rounds = (allTransitions rounds).foldl stepGroups [] := by
  suffices h : ∀ (rs : List TransitionRound) (acc : List (String × List TransitionMetrics)),
      rs.foldl (fun acc r => r.transitions.foldl stepGroups acc) acc
        = (allTransitions rs).foldl stepGroups acc by
    exact h rounds []
  intro rs
  induction rs with
  | nil => intro acc; rfl
  | cons r rest ih =>
    intro acc
    have hall : allTransitions (r :: rest) = r.transitions ++ allTransitions rest := rfl
    rw [List.foldl_cons, ih, hall, List.foldl_append]

theorem lookup_aggregateTransitions (rounds : List TransitionRound) (k : String) :
    (aggregateTransitions rounds).lookup k = ((byEdge rounds).lookup k).map edgeSummary := by
  rw [aggregateTransitions]
  induction byEdge rounds with
  | nil => rfl
  | cons p rest ih =>
    obtain ⟨k', ms⟩ := p
    by_cases h : k = k'
    · subst h
      rw [List.map_cons, lookup_cons_self, lookup_cons_self]
      rfl
    · rw [List.map_cons, lookup_cons_of_ne h, lookup_cons_of_ne h, ih]

/-- Claim C7: transition aggregation groups measurements by the key
`from->to`; every group summary holds the mean and median of `avgFps`, the
medians of `p95FrameMs`, `droppedFrameRatio` and `navigationDurationMs`
over the group's non-null values (null when no non-null value exists — the
navigation median in particular excludes nulls), the reach rate as the mean
of the 0/1 reached indicator, and `samples` as the group size. -/
theorem aggregateTransitions_spec (rounds : List TransitionRound) (k : String)
    (s : EdgeSummary) (h : (aggregateTransitions rounds).lookup k = some s) :
    s.samples = (groupVals k (allTransitions rounds)).length ∧
    s.avgFpsMean
      = (if (groupVals k (allTransitions rounds)).filterMap (fun m => m.avgFps) = []
          then none
          else some (pyRound 3 (pyMean
            ((groupVals k (allTransitions rounds)).filterMap (fun m => m.avgFps))))) ∧
    s.avgFpsMedian
      = (if (groupVals k (allTransitions rounds)).filterMap (fun m => m.avgFps) = []
          then none
          else some (pyRound 3 (pyMedian
            ((groupVals k (allTransitions rounds)).filterMap (fun m => m.avgFps))))) ∧
    s.p95FrameMsMedian
      = (if (groupVals k (allTransitions rounds)).filterMap (fun m => m.p95FrameMs) = []
          then none
          else some (pyRound 3 (pyMedian
            ((groupVals k (allTransitions rounds)).filterMap (fun m => m.p95FrameMs))))) ∧
    s.droppedFrameRatioMedian
      = (if (groupVals k (allTransitions rounds)).filterMap (fun m => m.droppedFrameRatio) = []
          then none
          else some (pyRound 4 (pyMedian
            ((groupVals k (allTransitions rounds)).filterMap (fun m => m.droppedFrameRatio))))) ∧
    s.navigationDurationMsMedian
      = (if (groupVals k (allTransitions rounds)).filterMap (fun m => m.navigationDurationMs) = []
          then none
          else some (pyRound 3 (pyMedian
            ((groupVals k (allTransitions rounds)).filterMap (fun m => m.navigationDurationMs))))) ∧
    s.expectedPathReachRate
      = some (pyRound 4 (pyMean ((groupVals k (allTransitions rounds)).map
          (fun m => if m.reachedExpectedPath then (1 : ℚ) else 0)))) := by
  rw [lookup_aggregateTransitions, byEdge_eq_foldl, lookup_foldl_stepGroups] at h
  have hs : s = edgeSummary (groupVals k (allTransitions rounds)) := by
    cases hg : groupVals k (allTransitions rounds) with
    | nil =>
      rw [hg] at h
      simp [List.lookup] at h
    | cons m g2 =>
      rw [hg] at h
      simp [List.lookup] at h
      exact h.symm
  subst hs
  refine ⟨rfl, ?_, ?_, ?_, ?_, ?_, ?_⟩ <;>
    simp only [edgeSummary, safe_round] <;>
    split_ifs with h1 h2 <;>
    simp_all [List.isEmpty_eq_true, safe_round]

/-- A rational whose scaled value is an integer is returned unchanged by
Python rounding. -/
theorem pyRound_of_exact (places : ℕ) (q : ℚ) (n : ℤ)
    (h : q * 10 ^ places = (n : ℚ)) : pyRound places q = q := by
  unfold pyRound roundHalfEven
  rw [h, Int.floor_intCast]
  rw [if_pos (by norm_num)]
  rw [div_eq_iff (by positivity : ((10 : ℚ)) ^ places ≠ 0)]
  exact h.symm

def c7m1 : TransitionMetrics :=
  { avgFps := some 60, p95FrameMs := some 10, droppedFrameRatio := some 0,
    navigationDurationMs := some 100, reachedExpectedPath := true, actualPath := "/signup" }

def c7m2 : TransitionMetrics :=
  { avgFps := some 50, p95FrameMs := some 20, droppedFrameRatio := some (1 / 10),
    navigationDurationMs := some 200, reachedExpectedPath := true, actualPath := "/signup" }

def c7m3 : TransitionMetrics :=
  { avgFps := some 40, p95FrameMs := some 30, droppedFrameRatio := some (2 / 10),
    navigationDurationMs := none, reachedExpectedPath := true, actualPath := "/signup" }

def c7m4 : TransitionMetrics :=
  { avgFps := some 30, p95FrameMs := some 40, droppedFrameRatio := some (3 / 10),
    navigationDurationMs := some 300, reachedExpectedPath := false, actualPath := "/signin" }

/-- Four measurements of the edge `/signin->/signup`, of which 3 reached the
expected path and one has a null navigation duration. -/
def c7Rounds : List TransitionRound :=
  [ { round := 1,
      transitions := [
        { «from» := "/signin", «to» := "/signup", selector := "s", metrics := c7m1 },
        { «from» := "/signin", «to» := "/signup", selector := "s", metrics := c7m2 },
        { «from» := "/signin", «to» := "/signup", selector := "s", metrics := c7m3 },
        { «from» := "/signin", «to» := "/signup", selector := "s", metrics := c7m4 } ] } ]

/-- The summary `aggregate_transitions` produces for `c7Rounds`. -/
def c7Summary : EdgeSummary :=
  { avgFpsMean := some 45, avgFpsMedian := some 45, p95FrameMsMedian := some 25,
    droppedFrameRatioMedian := some (3 / 20), navigationDurationMsMedian := some 200,
    expectedPathReachRate := some (3 / 4), samples := 4 }

theorem aggregateTransitions_spec_witness :
    (aggregateTransitions c7Rounds).lookup "/signin->/signup" = some c7Summary ∧
      c7Summary.samples = (groupVals "/signin->/signup" (allTransitions c7Rounds)).length ∧
      c7Summary.expectedPathReachRate = some (3 / 4) := by
  have hbe : byEdge c7Rounds = [("/signin->/signup", [c7m1, c7m2, c7m3, c7m4])] := by
    rfl
  have r1 : pyRound 3 (45 : ℚ) = 45 := pyRound_of_exact 3 45 45000 (by norm_num)
  have r2 : pyRound 3 (25 : ℚ) = 25 := pyRound_of_exact 3 25 25000 (by norm_num)
  have r3 : pyRound 4 ((3 : ℚ) / 20) = 3 / 20 := pyRound_of_exact 4 (3 / 20) 1500 (by norm_num)
  have r4 : pyRound 3 (200 : ℚ) = 200 := pyRound_of_exact 3 200 200000 (by norm_num)
  have r5 : pyRound 4 ((3 : ℚ) / 4) = 3 / 4 := pyRound_of_exact 4 (3 / 4) 7500 (by norm_num)
  have hsum : edgeSummary [c7m1, c7m2, c7m3, c7m4] = c7Summary := by
    norm_num [edgeSummary, c7m1, c7m2, c7m3, c7m4, pyMean, pyMedian, sortAsc,
      safe_round, c7Summary, List.filterMap_cons, r1, r2, r3, r4, r5]
  have hl : (aggregateTransitions c7Rounds).lookup "/signin->/signup" = some c7Summary := by
    rw [lookup_aggregateTransitions, hbe, lookup_cons_self, Option.map_some', hsum]
  have h := aggregateTransitions_spec c7Rounds "/signin->/signup" c7Summary hl
  exact ⟨hl, h.1, by norm_num [c7Summary]⟩

/-! ### Transition collection (`collect_transition_rounds`, lines 314-367) -/

/-- The value `TRANSITION_FPS_JS` resolves with: the error object or a
measurement dict. -/
inductive PageResult where
  | error (msg : String)
  | ok (m : TransitionMetrics)

/-- The fixed four-edge transition table (source lines 27-32):
`(source_route, expected_route, selector)`. -/
def TRANSITIONS : List (String × String × String) :=
  [ ("/signin", "/signup", "a[href=\"/signup\"]"),
    ("/signup", "/signin", "a[href=\"/signin\"]"),
    ("/signin", "/forgot-password", "a[href=\"/forgot-password\"]"),
    ("/forgot-password", "/signin", "a[href=\"/signin\"]") ]

/-- The per-round edge loop (lines 336-361), with the browser interaction
abstracted into `res`, the value the in-page sampler resolves with for an
edge: an error result raises `RuntimeError` (fail-fast), otherwise an entry
is appended whose "from"/"to" are the edge's configured source and expected
destination routes — not anything read back from the page. -/
def collectEntries (res : String × String × String → PageResult) :
    List (String × String × String) → Except String (List TransitionEntry)
  | [] => .ok []
  | e :: rest =>
    match res e with
    | .error msg => .error msg
    | .ok m =>
      match collectEntries res rest with
      | .error msg => .error msg
      | .ok entries =>
        .ok ({ «from» := e.1, «to» := e.2.1, selector := e.2.2, metrics := m } :: entries)

/-- The round loop of `collect_transition_rounds`, over the round ids. -/
def collectRoundsAux (res : ℕ → String × String × String → PageResult) :
    List ℕ → Except String (List TransitionRound)
  | [] => .ok []
  | i :: rest =>
    match collectEntries (res i) TRANSITIONS with
    | .error msg => .error msg
    | .ok entries =>
      match collectRoundsAux res rest with
      | .error msg => .error msg
      | .ok rounds => .ok ({ round := i, transitions := entries } :: rounds)

/-- `collect_transition_rounds`: rounds `1 .. transition_rounds`, each
walking the fixed `TRANSITIONS` list in order. -/
def collectTransitionRounds (res : ℕ → String × String × String → PageResult)
    (transitionRounds : ℕ) : Except String (List TransitionRound) :=
  collectRoundsAux res ((List.range transitionRounds).map (fun i => i + 1))

theorem collectEntries_ok_map (res : String × String × String → PageResult)
    (edges : List (String × String × String)) (entries : List TransitionEntry)
    (h : collectEntries res edges = .ok entries) :
    entries.map (fun t => (t.«from», t.«to»)) = edges.map (fun e => (e.1, e.2.1)) := by
  induction edges generalizing entries with
  | nil =>
    simp only [collectEntries] at h
    cases h
    rfl
  | cons e rest ih =>
    simp only [collectEntries] at h
    cases hr : res e with
    | error msg => rw [hr] at h; cases h
    | ok m =>
      rw [hr] at h
      cases hrec : collectEntries res rest with
      | error msg => rw [hrec] at h; cases h
      | ok es =>
        rw [hrec] at h
        cases h
        simp [ih es hrec]

theorem collectRoundsAux_transitions (res : ℕ → String × String × String → PageResult)
    (ids : List ℕ) (rounds : List TransitionRound)
    (h : collectRoundsAux res ids = .ok rounds) :
    ∀ r ∈ rounds, r.transitions.map (fun t => (t.«from», t.«to»))
      = TRANSITIONS.map (fun e => (e.1, e.2.1)) := by
  induction ids generalizing rounds with
  | nil =>
    simp only [collectRoundsAux] at h
    cases h
    simp
  | cons i rest ih =>
    simp only [collectRoundsAux] at h
    cases he : collectEntries (res i) TRANSITIONS with
    | error msg => rw [he] at h; cases h
    | ok entries =>
      rw [he] at h
      cases hrec : collectRoundsAux res rest with
      | error msg => rw [hrec] at h; cases h
      | ok rs =>
        rw [hrec] at h
        cases h
        intro r hr
        rcases List.mem_cons.1 hr with rfl | hmem
        · exact collectEntries_ok_map _ _ _ he
        · exact ih rs hrec r hmem

theorem mem_keys_lookup_isSome {β : Type} (l : List (String × β)) (k : String)
    (h : k ∈ l.map Prod.fst) : (l.lookup k).isSome := by
  induction l with
  | nil => simp at h
  | cons p rest ih =>
    obtain ⟨k', b⟩ := p
    by_cases hk : k = k'
    · subst hk
      rw [lookup_cons_self]
      rfl
    · rw [lookup_cons_of_ne hk]
      exact ih (by simpa [hk] using h)

theorem mem_allTransitions (rounds : List TransitionRound) (t : TransitionEntry)
    (h : t ∈ allTransitions rounds) : ∃ r ∈ rounds, t ∈ r.transitions := by
  induction rounds with
  | nil => simp [allTransitions] at h
  | cons r rest ih =>
    have hall : allTransitions (r :: rest) = r.transitions ++ allTransitions rest := rfl
    rw [hall, List.mem_append] at h
    rcases h with h | h
    · exact ⟨r, List.mem_cons_self r rest, h⟩
    · obtain ⟨r', hr', ht'⟩ := ih h
      exact ⟨r', List.mem_cons_of_mem r hr', ht'⟩

/-- Claim C10: every recorded transition entry carries "from" = the edge's
configured source route and "to" = its configured expected destination (the
page's actual path only lands in the metrics dict), so every key of the
transition summary is one of the four configured edge keys no matter what
the page reported. -/
theorem transitions_keys_configured (res : ℕ → String × String × String → PageResult)
    (n : ℕ) (rounds : List TransitionRound)
    (h : collectTransitionRounds res n = .ok rounds) :
    (∀ r ∈ rounds, r.transitions.map (fun t => (t.«from», t.«to»))
        = TRANSITIONS.map (fun e => (e.1, e.2.1))) ∧
      ∀ k ∈ (aggregateTransitions rounds).map (fun p => p.1),
        k ∈ ["/signin->/signup", "/signup->/signin",
             "/signin->/forgot-password", "/forgot-password->/signin"] := by
  have hA := collectRoundsAux_transitions res _ rounds h
  refine ⟨hA, ?_⟩
  intro k hk
  have hk2 : k ∈ (byEdge rounds).map Prod.fst := by
    simpa [aggregateTransitions, List.map_map, Function.comp] using hk
  have hsome := mem_keys_lookup_isSome _ _ hk2
  rw [byEdge_eq_foldl, lookup_foldl_stepGroups] at hsome
  have hg : groupVals k (allTransitions rounds) ≠ [] := by
    intro h0
    rw [h0] at hsome
    simp [List.lookup] at hsome
  have hfil : (allTransitions rounds).filter (fun t => edgeKey t == k) ≠ [] := by
    intro h0
    exact hg (by simp [groupVals, h0])
  obtain ⟨t, htf⟩ := List.exists_mem_of_ne_nil _ hfil
  have htmem : t ∈ allTransitions rounds := (List.mem_filter.1 htf).1
  have hkey : edgeKey t = k := by simpa using (List.mem_filter.1 htf).2
  obtain ⟨r, hr, htr⟩ := mem_allTransitions rounds t htmem
  have hpair : (t.«from», t.«to») ∈ TRANSITIONS.map (fun e => (e.1, e.2.1)) := by
    rw [← hA r hr]
    exact List.mem_map_of_mem _ htr
  subst hkey
  simp only [TRANSITIONS, List.map_cons, List.map_nil, List.mem_cons,
    List.not_mem_nil, or_false, Prod.mk.injEq] at hpair
  rcases hpair with ⟨h1, h2⟩ | ⟨h1, h2⟩ | ⟨h1, h2⟩ | ⟨h1, h2⟩ <;>
    simp [edgeKey, h1, h2]

/-- A result oracle that always resolves with a measurement that did not
reach the expected path (the actual path stays at the source route). -/
def c10res : ℕ → String × String × String → PageResult := fun _ e =>
  .ok { avgFps := none, p95FrameMs := none, droppedFrameRatio := none,
        navigationDurationMs := none, reachedExpectedPath := false, actualPath := e.1 }

def c10m (p : String) : TransitionMetrics :=
  { avgFps := none, p95FrameMs := none, droppedFrameRatio := none,
    navigationDurationMs := none, reachedExpectedPath := false, actualPath := p }

def c10rounds : List TransitionRound :=
  [ { round := 1, transitions := [
      { «from» := "/signin", «to» := "/signup",
        selector := "a[href=\"/signup\"]", metrics := c10m "/signin" },
      { «from» := "/signup", «to» := "/signin",
        selector := "a[href=\"/signin\"]", metrics := c10m "/signup" },
      { «from» := "/signin", «to» := "/forgot-password",
        selector := "a[href=\"/forgot-password\"]", metrics := c10m "/signin" },
      { «from» := "/forgot-password", «to» := "/signin",
        selector := "a[href=\"/signin\"]", metrics := c10m "/forgot-password" } ] } ]

theorem transitions_keys_configured_witness :
    collectTransitionRounds c10res 1 = .ok c10rounds ∧
      (∀ r ∈ c10rounds, r.transitions.map (fun t => (t.«from», t.«to»))
          = TRANSITIONS.map (fun e => (e.1, e.2.1))) ∧
      ∀ k ∈ (aggregateTransitions c10rounds).map (fun p => p.1),
        k ∈ ["/signin->/signup", "/signup->/signin",
             "/signin->/forgot-password", "/forgot-password->/signin"] := by
  have h : collectTransitionRounds c10res 1 = .ok c10rounds := rfl
  have hthm := transitions_keys_configured c10res 1 c10rounds h
  exact ⟨h, hthm.1, hthm.2⟩

/-! ### Navigation polling wait (`TRANSITION_FPS_JS`, lines 149-157 and 183) -/

/-- One iteration of the polling loop, as the facts it observes: the clock
value at the `while` condition, the current `window.location.pathname`, and
the clock value that would be stored into `navEnd`. -/
structure Poll where
  tCheck : ℚ
  path : String
  tMark : ℚ
  deriving DecidableEq

/-- The polling loop (lines 149-157): while the check time is before
`navDeadline`, stop at the first poll whose path equals the expected path,
storing its mark time into `navEnd`; leaving the loop yields no `navEnd`. -/
def pollForPath (deadline : ℚ) (expected : String) : List Poll → Option ℚ
  | [] => none
  | p :: rest =>
    if p.tCheck < deadline then
      if p.path = expected then some p.tMark else pollForPath deadline expected rest
    else none

/-- `navigationDurationMs` (line 183):
`navEnd !== null ? Number((navEnd - navStart).toFixed(3)) : null`, with
`navDeadline = navStart + timeoutMs` (line 150). -/
def navigationDurationMs (navStart timeoutMs : ℚ) (expected : String)
    (polls : List Poll) : Option ℚ :=
  (pollForPath (navStart + timeoutMs) expected polls).map
    (fun navEnd => toFixed 3 (navEnd - navStart))

theorem pollForPath_none_iff (deadline : ℚ) (expected : String) (polls : List Poll)
    (hmono : (polls.map Poll.tCheck).Pairwise (· ≤ ·)) :
    pollForPath deadline expected polls = none ↔
      ∀ p ∈ polls, p.tCheck < deadline → p.path ≠ expected := by
  induction polls with
  | nil => simp [pollForPath]
  | cons p rest ih =>
    rw [List.map_cons, List.pairwise_cons] at hmono
    obtain ⟨hhead, htail⟩ := hmono
    by_cases hlt : p.tCheck < deadline
    · by_cases hp : p.path = expected
      · simp only [pollForPath, if_pos hlt, if_pos hp]
        constructor
        · intro h; cases h
        · intro h
          exact absurd hp (h p (List.mem_cons_self p rest) hlt)
      · simp only [pollForPath, if_pos hlt, if_neg hp]
        rw [ih htail]
        constructor
        · intro h q hq hqlt
          rcases List.mem_cons.1 hq with rfl | hmem
          · exact hp
          · exact h q hmem hqlt
        · intro h q hq hqlt
          exact h q (List.mem_cons_of_mem p hq) hqlt
    · simp only [pollForPath, if_neg hlt]
      constructor
      · intro _ q hq hqlt
        rcases List.mem_cons.1 hq with rfl | hmem
        · exact absurd hqlt hlt
        · exact absurd hqlt (by
            have := hhead q.tCheck (List.mem_map_of_mem Poll.tCheck hmem)
            push_neg at hlt
            exact not_lt.mpr (le_trans hlt this))
      · intro _
        trivial

theorem pollForPath_find (deadline : ℚ) (expected : String) (polls : List Poll)
    (hmono : (polls.map Poll.tCheck).Pairwise (· ≤ ·)) :
    ∀ p, polls.find? (fun q => q.path == expected) = some p →
      p.tCheck < deadline →
      pollForPath deadline expected polls = some p.tMark := by
  induction polls with
  | nil => intro p h; cases h
  | cons q rest ih =>
    rw [List.map_cons, List.pairwise_cons] at hmono
    obtain ⟨hhead, htail⟩ := hmono
    intro p hfind hplt
    by_cases hq : q.path = expected
    · rw [List.find?_cons_of_pos _ (by simpa using hq)] at hfind
      cases hfind
      rw [pollForPath, if_pos hplt, if_pos hq]
    · rw [List.find?_cons_of_neg _ (by simpa using hq)] at hfind
      have hpmem : p ∈ rest := List.mem_of_find?_eq_some hfind
      have hqlt : q.tCheck < deadline :=
        lt_of_le_of_lt (hhead p.tCheck (List.mem_map_of_mem Poll.tCheck hpmem)) hplt
      rw [pollForPath, if_pos hqlt, if_neg hq]
      exact ih htail p hfind hplt

/-- Claim C8: in an error-free transition measurement, with the poll check
times nondecreasing, `navigationDurationMs` is null exactly when no poll
inside the timeout window observed the expected path; otherwise it is the
elapsed time from the click (`navStart`) to the first poll observing the
expected path, rounded to 3 decimal places. -/
theorem navigationDurationMs_spec (navStart timeoutMs : ℚ) (expected : String)
    (polls : List Poll)
    (hmono : (polls.map Poll.tCheck).Pairwise (· ≤ ·)) :
    (navigationDurationMs navStart timeoutMs expected polls = none ↔
      ∀ p ∈ polls, p.tCheck < navStart + timeoutMs → p.path ≠ expected) ∧
    ∀ p, polls.find? (fun q => q.path == expected) = some p →
      p.tCheck < navStart + timeoutMs →
      navigationDurationMs navStart timeoutMs expected polls
        = some (toFixed 3 (p.tMark - navStart)) := by
  constructor
  · rw [navigationDurationMs, Option.map_eq_none']
    exact pollForPath_none_iff _ _ _ hmono
  · intro p hfind hplt
    rw [navigationDurationMs, pollForPath_find _ _ _ hmono p hfind hplt,
      Option.map_some']

/-- Two polls: at 0 ms the path is still the source, at 16 ms it is the
expected destination; the deadline is 5000 ms after a click at 0 ms. -/
def c8Polls : List Poll :=
  [ { tCheck := 0, path := "/signin", tMark := 1 },
    { tCheck := 16, path := "/signup", tMark := 17 } ]

theorem navigationDurationMs_spec_witness :
    ((c8Polls.map Poll.tCheck).Pairwise (· ≤ ·)) ∧
      navigationDurationMs 0 5000 "/signup" c8Polls = some (toFixed 3 (17 - 0)) ∧
      toFixed 3 ((17 : ℚ) - 0) = 17 ∧
      navigationDurationMs 0 5000 "/nowhere" c8Polls = none := by
  have hmono : (c8Polls.map Poll.tCheck).Pairwise (· ≤ ·) := by
    norm_num [c8Polls, List.pairwise_cons]
  refine ⟨hmono, ?_, ?_, ?_⟩
  · exact (navigationDurationMs_spec 0 5000 "/signup" c8Polls hmono).2
      { tCheck := 16, path := "/signup", tMark := 17 }
      (by simp [c8Polls, List.find?])
      (by norm_num)
  · norm_num [toFixed]
  · refine (navigationDurationMs_spec 0 5000 "/nowhere" c8Polls hmono).1.mpr ?_
    intro p hp _
    fin_cases hp <;> decide

end Wave4
